import Mathlib

/-!
Shallow embedding of the schemaless Spanner graph store
(`langchain_google_spanner/schemaless_graph_store.py`).

Strings are modelled as lists of Unicode code points (`Str := List Nat`);
`utf8` encodes them to byte lists exactly as Python's `str.encode('utf-8')`.
`hashlib.sha256` (an external library the store calls) is modelled by a
complete implementation of FIPS 180-4 SHA-256 over byte lists.
-/

set_option maxRecDepth 100000

abbrev Str := List Nat

/-- Code points of a Lean string literal (used only to write concrete inputs). -/
def strBytes (s : String) : Str := s.data.map Char.toNat

/-- UTF-8 encoding of a single code point, as in Python's `str.encode('utf-8')`. -/
def utf8Char (c : Nat) : List Nat :=
  if c < 128 then [c]
  else if c < 2048 then [192 + c / 64, 128 + c % 64]
  else if c < 65536 then [224 + c / 4096, 128 + c / 64 % 64, 128 + c % 64]
  else [240 + c / 262144, 128 + c / 4096 % 64, 128 + c / 64 % 64, 128 + c % 64]

/-- UTF-8 encoding of a whole string (list of code points to list of bytes). -/
def utf8 (s : Str) : List Nat := s.foldr (fun c acc => utf8Char c ++ acc) []

/-! SHA-256 (FIPS 180-4), operating on lists of bytes. -/

def w32 : Nat := 4294967296

def rotr32 (n x : Nat) : Nat := ((x >>> n) ||| (x <<< (32 - n))) % w32

def not32 (x : Nat) : Nat := x ^^^ 4294967295

def shaBigSigma0 (x : Nat) : Nat := rotr32 2 x ^^^ rotr32 13 x ^^^ rotr32 22 x

def shaBigSigma1 (x : Nat) : Nat := rotr32 6 x ^^^ rotr32 11 x ^^^ rotr32 25 x

def shaSmallSigma0 (x : Nat) : Nat := rotr32 7 x ^^^ rotr32 18 x ^^^ (x >>> 3)

def shaSmallSigma1 (x : Nat) : Nat := rotr32 17 x ^^^ rotr32 19 x ^^^ (x >>> 10)

def shaK : List Nat :=
  [1116352408, 1899447441, 3049323471, 3921009573, 961987163,
   1508970993, 2453635748, 2870763221, 3624381080, 310598401,
   607225278, 1426881987, 1925078388, 2162078206, 2614888103,
   3248222580, 3835390401, 4022224774, 264347078, 604807628,
   770255983, 1249150122, 1555081692, 1996064986, 2554220882,
   2821834349, 2952996808, 3210313671, 3336571891, 3584528711,
   113926993, 338241895, 666307205, 773529912, 1294757372,
   1396182291, 1695183700, 1986661051, 2177026350, 2456956037,
   2730485921, 2820302411, 3259730800, 3345764771, 3516065817,
   3600352804, 4094571909, 275423344, 430227734, 506948616,
   659060556, 883997877, 958139571, 1322822218, 1537002063,
   1747873779, 1955562222, 2024104815, 2227730452, 2361852424,
   2428436474, 2756734187, 3204031479, 3329325298]

/-- Big-endian bytes of a natural number, fixed width `k` bytes. -/
def natToBytesBE : Nat → Nat → List Nat
  | 0, _ => []
  | k + 1, n => natToBytesBE k (n / 256) ++ [n % 256]

/-- SHA-256 message padding: append 0x80, zeros to 56 mod 64, then the
64-bit big-endian bit length. -/
def shaPad (msg : List Nat) : List Nat :=
  msg ++ [128] ++ List.replicate ((119 - msg.length % 64) % 64) 0
      ++ natToBytesBE 8 (8 * msg.length)

/-- Group bytes into big-endian 32-bit words (4 bytes per word). -/
def bytesToWords : List Nat → List Nat
  | b0 :: b1 :: b2 :: b3 :: rest =>
      (((b0 * 256 + b1) * 256 + b2) * 256 + b3) :: bytesToWords rest
  | _ => []

/-- Extend the 16-word block to the 64-word message schedule. -/
def shaSchedule (w16 : List Nat) : List Nat :=
  (List.range 48).foldl
    (fun w _ =>
      let i := w.length
      let s0 := shaSmallSigma0 (w.getD (i - 15) 0)
      let s1 := shaSmallSigma1 (w.getD (i - 2) 0)
      w ++ [(w.getD (i - 16) 0 + s0 + w.getD (i - 7) 0 + s1) % w32])
    w16

structure ShaState where
  a : Nat
  b : Nat
  c : Nat
  d : Nat
  e : Nat
  f : Nat
  g : Nat
  h : Nat

def shaH0 : ShaState :=
  ⟨1779033703, 3144134277, 1013904242, 2773480762,
   1359893119, 2600822924, 528734635, 1541459225⟩

def shaRound (st : ShaState) (ki wi : Nat) : ShaState :=
  let t1 := (st.h + shaBigSigma1 st.e + ((st.e &&& st.f) ^^^ (not32 st.e &&& st.g)) + ki + wi) % w32
  let t2 := (shaBigSigma0 st.a + ((st.a &&& st.b) ^^^ (st.a &&& st.c) ^^^ (st.b &&& st.c))) % w32
  ⟨(t1 + t2) % w32, st.a, st.b, st.c, (st.d + t1) % w32, st.e, st.f, st.g⟩

def shaCompress (hst : ShaState) (block : List Nat) : ShaState :=
  let w := shaSchedule (bytesToWords block)
  let st := (List.range 64).foldl (fun st i => shaRound st (shaK.getD i 0) (w.getD i 0)) hst
  ⟨(hst.a + st.a) % w32, (hst.b + st.b) % w32, (hst.c + st.c) % w32, (hst.d + st.d) % w32,
   (hst.e + st.e) % w32, (hst.f + st.f) % w32, (hst.g + st.g) % w32, (hst.h + st.h) % w32⟩

/-- Big-endian byte expansion of one 32-bit word. -/
def wordToBytes (x : Nat) : List Nat :=
  [x / 16777216, x / 65536, x / 256, x].map (fun y => y % 256)

def shaOut (st : ShaState) : List Nat :=
  [st.a, st.b, st.c, st.d, st.e, st.f, st.g, st.h].flatMap wordToBytes

/-- SHA-256 digest (32 bytes) of a byte list; models `hashlib.sha256(...).digest()`. -/
def sha256 (msg : List Nat) : List Nat :=
  let padded := shaPad msg
  let nBlocks := padded.length / 64
  shaOut ((List.range nBlocks).foldl
    (fun hst i => shaCompress hst ((padded.drop (64 * i)).take 64)) shaH0)

/-- Value of a byte list read as a big-endian unsigned integer. -/
def bytesBE (bs : List Nat) : Nat := bs.foldl (fun acc b => acc * 256 + b) 0

/-- Python's `int.from_bytes(bs, byteorder='big', signed=True)`: big-endian
value, reinterpreted in two's complement over `8 * bs.length` bits. -/
def int_from_bytes_be_signed (bs : List Nat) : Int :=
  let n := bytesBE bs
  if 2 * n < 2 ^ (8 * bs.length) then (n : Int) else (n : Int) - 2 ^ (8 * bs.length)

/-- The store's `_get_int64_hash`: SHA-256 of the UTF-8 encoding, first 8
bytes, big-endian, signed. -/
def _get_int64_hash (input_string : Str) : Int :=
  int_from_bytes_be_signed ((sha256 (utf8 input_string)).take 8)

/-! JSON-like property values and Python-dict association lists. -/

inductive JValue where
  | null
  | bool (b : Bool)
  | int (i : Int)
  | str (s : Str)
  | arr (items : List JValue)
  | obj (fields : List (Str × JValue))

abbrev Props := List (Str × JValue)

/-- Python dict assignment `d[k] = v`: replace the value of an existing key
in place, else append the new pair at the end. -/
def setKey : Props → Str → JValue → Props
  | [], k, v => [(k, v)]
  | (k0, v0) :: rest, k, v =>
      if k0 = k then (k, v) :: rest else (k0, v0) :: setKey rest k v

/-- Python dict lookup `d[k]` (first binding of the key). -/
def lookupKey (d : Props) (k : Str) : Option JValue :=
  (d.find? (fun p => decide (p.1 = k))).map (fun p => p.2)

/-! Data model of the consumed `GraphDocument` values (langchain). -/

structure Document where
  page_content : Str
  metadata : List (Str × JValue)

structure Node where
  id : Str
  type : Str
  properties : Props

structure Relationship where
  source : Node
  target : Node
  type : Str
  properties : Props

structure GraphDocument where
  source : Document
  nodes : List Node
  relationships : List Relationship

/-- ASCII decimal digits of a natural number. -/
def natDigits (n : Nat) : Str := (Nat.toDigits 10 n).map Char.toNat

/-- Python's `str(i)` for an integer: decimal digits, with a leading ASCII
minus sign (code point 45) when negative. -/
def intStr (i : Int) : Str :=
  if i < 0 then 45 :: natDigits i.natAbs else natDigits i.toNat

/-- ASCII hyphen-minus, the separator of the canonical strings. -/
def dash : Str := [45]

/-- Node identifier: the hash of the canonical string type-id. -/
def node_hash_id (n : Node) : Int := _get_int64_hash (n.type ++ dash ++ n.id)

/-! Mutation building (the body of `add_graph_documents`). -/

abbrev NodeRow := Int × Str × Props

abbrev EdgeRow := Int × Int × Int × Str × Props

/-- Properties stored in a node row: the caller's mapping, with
`baseEntityLabel: true` injected when requested, then a `source` object
injected when requested (in the order the code assigns them). -/
def node_row_properties (doc : GraphDocument) (include_source baseEntityLabel : Bool)
    (n : Node) : Props :=
  let p0 := n.properties
  let p1 := if baseEntityLabel then setKey p0 (strBytes "baseEntityLabel") (JValue.bool true) else p0
  if include_source then
    setKey p1 (strBytes "source")
      (JValue.obj [(strBytes "page_content", JValue.str doc.source.page_content),
                   (strBytes "metadata", JValue.obj doc.source.metadata)])
  else p1

/-- One node mutation row: (hash of type-id, type as label, properties). -/
def node_row (doc : GraphDocument) (include_source baseEntityLabel : Bool)
    (n : Node) : NodeRow :=
  (node_hash_id n, n.type, node_row_properties doc include_source baseEntityLabel n)

/-- One edge mutation row: endpoint hashes, the edge hash of the canonical
string sourceHash-type-targetHash, the type as label, and the properties. -/
def edge_row (rel : Relationship) : EdgeRow :=
  let source_hash_id := node_hash_id rel.source
  let target_hash_id := node_hash_id rel.target
  let edge_hash_id :=
    _get_int64_hash (intStr source_hash_id ++ dash ++ rel.type ++ dash ++ intStr target_hash_id)
  (source_hash_id, target_hash_id, edge_hash_id, rel.type, rel.properties)

/-- The two mutation batches built by `insert_data`: one loop over the
documents, appending each document's node rows and edge rows in order. -/
def build_mutations (graph_documents : List GraphDocument)
    (include_source baseEntityLabel : Bool) : List NodeRow × List EdgeRow :=
  graph_documents.foldl
    (fun acc doc =>
      (acc.1 ++ doc.nodes.map (node_row doc include_source baseEntityLabel),
       acc.2 ++ doc.relationships.map edge_row))
    ([], [])

/-! Post-state of the caller's documents after `add_graph_documents`.

In the source, `properties = node.properties or {}` binds `properties` to the
very dict object held by the input node whenever that dict is truthy
(non-empty); the subsequent `properties[...] = ...` assignments then mutate
the caller's mapping in place. When the node's mapping is empty (or None),
`or {}` yields a fresh dict and the input is untouched. Relationship
properties are never assigned into. -/

/-- Properties mapping held by an input node after the call. -/
def node_properties_after (doc : GraphDocument) (include_source baseEntityLabel : Bool)
    (n : Node) : Props :=
  if n.properties.isEmpty then n.properties
  else node_row_properties doc include_source baseEntityLabel n

/-! Keyed upsert semantics (`insert_or_update` applied row by row, in batch
order, to a table keyed by the node identifier). -/

/-- Apply one keyed upsert row to a table state: overwrite the row with the
same key if present, else append the new row. -/
def upsertRow (table : List NodeRow) (r : NodeRow) : List NodeRow :=
  if table.any (fun x => decide (x.1 = r.1)) then
    table.map (fun x => if x.1 = r.1 then r else x)
  else table ++ [r]

/-- Result of applying a whole node batch, in order, to an empty table. -/
def apply_upserts (rows : List NodeRow) : List NodeRow := rows.foldl upsertRow []

/-! Schema management, transactions and cleanup, modelled as a backend
oracle (the outcome of each remote call) plus the function of the store. -/

/-- Configuration supplied at construction. -/
structure Config where
  node_table : Str
  edge_table : Str
  graph_name : Str

/-- DDL statements the store can issue. -/
inductive Ddl where
  | create_node_table (name : Str)
  | create_edge_table (name interleave_parent : Str)
  | create_property_graph (name node_t edge_t : Str)
  | drop_property_graph (if_exists : Bool) (name : Str)
  | drop_table (if_exists : Bool) (name : Str)

abbrev Err := Nat

/-- Outcome of every remote call the store makes: what each catalog query
returns or raises, and whether each DDL application or mutation commit
succeeds. Quantifying over this structure quantifies over all backend
behaviours visible to the store. -/
structure Backend where
  tables_query : Except Err (List Str)
  tables_ddl_result : Except Err Unit
  graph_query : Except Err (List Nat)
  graph_ddl_result : Except Err Unit
  cleanup_ddl_result : Except Err Unit

/-- The body of `_create_or_verify_schema` (the code inside the `try`).
Returns the DDL statements issued; on a raised backend error, the error is
paired with the statements already issued before it. -/
def schema_body (cfg : Config) (b : Backend) : Except (List Ddl × Err) (List Ddl) :=
  match b.tables_query with
  | .error e => .error ([], e)
  | .ok existing_tables =>
    let table_ddls :=
      (if cfg.node_table ∈ existing_tables then [] else [Ddl.create_node_table cfg.node_table]) ++
      (if cfg.edge_table ∈ existing_tables then []
       else [Ddl.create_edge_table cfg.edge_table cfg.node_table])
    match (if table_ddls.isEmpty then Except.ok () else b.tables_ddl_result) with
    | .error e => .error (table_ddls, e)
    | .ok _ =>
      match b.graph_query with
      | .error e => .error (table_ddls, e)
      | .ok graph_rows =>
        if graph_rows.isEmpty then
          let all_ddls := table_ddls ++
            [Ddl.create_property_graph cfg.graph_name cfg.node_table cfg.edge_table]
          match b.graph_ddl_result with
          | .error e => .error (all_ddls, e)
          | .ok _ => .ok all_ddls
        else .ok table_ddls

/-- Observable result of `_create_or_verify_schema`: the DDL statements it
issued and the error it caught and reported, if any. -/
structure SchemaResult where
  issued : List Ddl
  reported : Option Err

/-- The store's `_create_or_verify_schema`: run the body; any raised error
is caught, reported, and the call returns normally (never `.error`). -/
def _create_or_verify_schema (cfg : Config) (b : Backend) : Except Err SchemaResult :=
  match schema_body cfg b with
  | .ok issued => .ok ⟨issued, none⟩
  | .error (issued, e) => .ok ⟨issued, some e⟩

/-- The store's `refresh_schema`: re-runs `_create_or_verify_schema`. -/
def refresh_schema (cfg : Config) (b : Backend) : Except Err SchemaResult :=
  _create_or_verify_schema cfg b

/-- Observable result of `cleanup`: the DDL statements requested and the
bound on the wait for their completion. -/
structure CleanupResult where
  requested : List Ddl
  wait_timeout : Option Nat

/-- The store's `cleanup`: request the three guarded drops as one DDL batch,
await with `timeout=200`, and swallow any error. -/
def cleanup (cfg : Config) (b : Backend) : Except Err CleanupResult :=
  let ddl_statements :=
    [Ddl.drop_property_graph true cfg.graph_name,
     Ddl.drop_table true cfg.edge_table,
     Ddl.drop_table true cfg.node_table]
  let result : CleanupResult := ⟨ddl_statements, some 200⟩
  match b.cleanup_ddl_result with
  | .ok _ => .ok result
  | .error _ => .ok result

/-! Trace of `add_graph_documents`: schema verification, then one
transaction in which `insert_data` issues the batched upserts. -/

inductive Effect where
  | ensure_schema
  | txn_begin
  | upsert_nodes (table : Str) (columns : List Str) (values : List NodeRow)
  | upsert_edges (table : Str) (columns : List Str) (values : List EdgeRow)
  | txn_commit

def node_columns : List Str := [strBytes "id", strBytes "label", strBytes "properties"]

def edge_columns : List Str :=
  [strBytes "id", strBytes "dest_id", strBytes "edge_id", strBytes "label", strBytes "properties"]

/-- Effects of the `insert_data` closure inside one transaction: upsert the
node batch when non-empty, then the edge batch when non-empty. -/
def insert_data (cfg : Config) (graph_documents : List GraphDocument)
    (include_source baseEntityLabel : Bool) : List Effect :=
  let node_mutations := (build_mutations graph_documents include_source baseEntityLabel).1
  let edge_mutations := (build_mutations graph_documents include_source baseEntityLabel).2
  (if node_mutations.isEmpty then []
   else [Effect.upsert_nodes cfg.node_table node_columns node_mutations]) ++
  (if edge_mutations.isEmpty then []
   else [Effect.upsert_edges cfg.edge_table edge_columns edge_mutations])

/-- Trace of one `add_graph_documents` call: verify/create the schema first,
then run `insert_data` inside a single transaction. -/
def add_graph_documents (cfg : Config) (graph_documents : List GraphDocument)
    (include_source baseEntityLabel : Bool) : List Effect :=
  [Effect.ensure_schema] ++
  ([Effect.txn_begin] ++ insert_data cfg graph_documents include_source baseEntityLabel ++
   [Effect.txn_commit])

/-! Auxiliary views and concrete inputs used by the theorems below. -/

/-- Unsigned 64-bit value of the truncated digest underlying the hash. -/
def u64hash (s : Str) : Nat := bytesBE ((sha256 (utf8 s)).take 8)

/-- Rows whose key never repeats (the state invariant of a keyed table). -/
def distinctKeys (rows : List NodeRow) : Prop :=
  rows.Pairwise (fun a b => a.1 ≠ b.1)

def doc_source0 : Document := ⟨strBytes "Source text", []⟩

def acme_node_usa : Node :=
  ⟨strBytes "Acme", strBytes "Company", [(strBytes "country", JValue.str (strBytes "USA"))]⟩

def acme_node_de : Node :=
  ⟨strBytes "Acme", strBytes "Company", [(strBytes "country", JValue.str (strBytes "DE"))]⟩

def acme_doc1 : GraphDocument := ⟨doc_source0, [acme_node_usa], []⟩

def acme_doc2 : GraphDocument := ⟨doc_source0, [acme_node_de], []⟩

def cfg0 : Config := ⟨strBytes "GraphNode", strBytes "GraphEdge", strBytes "FinGraph"⟩

/-- Backend whose catalog query raises (error code 7). -/
def b_fail : Backend :=
  ⟨Except.error 7, Except.ok (), Except.ok [], Except.ok (), Except.ok ()⟩

/-- Backend whose catalog reports both tables and the graph present. -/
def b_ok : Backend :=
  ⟨Except.ok [strBytes "GraphNode", strBytes "GraphEdge"], Except.ok (),
   Except.ok [1], Except.ok (), Except.ok ()⟩

/-! Structural facts about the digest. -/

theorem wordToBytes_length (x : Nat) : (wordToBytes x).length = 4 := by
  simp [wordToBytes]

theorem shaOut_length (st : ShaState) : (shaOut st).length = 32 := by
  simp [shaOut, List.length_flatMap, wordToBytes]

theorem sha256_length (msg : List Nat) : (sha256 msg).length = 32 := by
  simp only [sha256]
  exact shaOut_length _

theorem mem_wordToBytes_lt {b x : Nat} (h : b ∈ wordToBytes x) : b < 256 := by
  simp only [wordToBytes, List.mem_map] at h
  obtain ⟨y, -, rfl⟩ := h
  exact Nat.mod_lt _ (by norm_num)

theorem mem_shaOut_lt {b : Nat} {st : ShaState} (h : b ∈ shaOut st) : b < 256 := by
  simp only [shaOut, List.mem_flatMap] at h
  obtain ⟨w, -, hw⟩ := h
  exact mem_wordToBytes_lt hw

theorem mem_sha256_lt {b : Nat} {msg : List Nat} (h : b ∈ sha256 msg) : b < 256 := by
  simp only [sha256] at h
  exact mem_shaOut_lt h

theorem bytesBE_go_lt (bs : List Nat) :
    ∀ acc, (∀ b ∈ bs, b < 256) →
      bs.foldl (fun a b => a * 256 + b) acc < (acc + 1) * 256 ^ bs.length := by
  induction bs with
  | nil => intro acc _; simp
  | cons b bs ih =>
    intro acc h
    have hb : b < 256 := h b (List.mem_cons_self _ _)
    have h2 := ih (acc * 256 + b) (fun x hx => h x (List.mem_cons_of_mem _ hx))
    calc (b :: bs).foldl (fun a b => a * 256 + b) acc
        = bs.foldl (fun a b => a * 256 + b) (acc * 256 + b) := by simp
      _ < (acc * 256 + b + 1) * 256 ^ bs.length := h2
      _ ≤ ((acc + 1) * 256) * 256 ^ bs.length :=
          Nat.mul_le_mul_right _ (by omega)
      _ = (acc + 1) * 256 ^ (b :: bs).length := by
          simp [List.length_cons, pow_succ]; ring

theorem bytesBE_lt {bs : List Nat} (h : ∀ b ∈ bs, b < 256) :
    bytesBE bs < 256 ^ bs.length := by
  simpa using bytesBE_go_lt bs 0 h

theorem sha256_take8_length (msg : List Nat) : ((sha256 msg).take 8).length = 8 := by
  simp [List.length_take, sha256_length]

theorem u64hash_lt (s : Str) : u64hash s < 2 ^ 64 := by
  have h : ∀ b ∈ (sha256 (utf8 s)).take 8, b < 256 :=
    fun b hb => mem_sha256_lt (List.take_subset _ _ hb)
  have h2 := bytesBE_lt h
  rw [sha256_take8_length] at h2
  calc u64hash s < 256 ^ 8 := h2
    _ = 2 ^ 64 := by norm_num

theorem hash_eq_of_u64 (s : Str) :
    _get_int64_hash s =
      if 2 * u64hash s < 2 ^ 64 then (u64hash s : Int) else (u64hash s : Int) - 2 ^ 64 := by
  simp only [_get_int64_hash, int_from_bytes_be_signed, u64hash, sha256_take8_length]

theorem hash_range (s : Str) :
    -(2 ^ 63) ≤ _get_int64_hash s ∧ _get_int64_hash s < 2 ^ 63 := by
  have h := u64hash_lt s
  rw [hash_eq_of_u64]
  split <;> constructor <;> omega

/-- C3: the identity hash is a total, deterministic, side-effect-free
function: for every string, it equals the first 8 bytes of the SHA-256
digest (a 256-bit digest) of the UTF-8 encoding, interpreted big-endian as
a signed 64-bit integer, and equal inputs yield equal identifiers. -/
theorem C3_hash_is_truncated_sha256 (s t : Str) (h : s = t) :
    _get_int64_hash s = int_from_bytes_be_signed ((sha256 (utf8 s)).take 8)
    ∧ (sha256 (utf8 s)).length = 32
    ∧ 256 ≤ 8 * (sha256 (utf8 s)).length
    ∧ -(2 ^ 63) ≤ _get_int64_hash s
    ∧ _get_int64_hash s < 2 ^ 63
    ∧ _get_int64_hash s = _get_int64_hash t := by
  refine ⟨rfl, sha256_length _, ?_, (hash_range s).1, (hash_range s).2, by rw [h]⟩
  rw [sha256_length]

/-- Witness for C3 at the concrete canonical string Company-Acme. -/
theorem C3_hash_witness :
    _get_int64_hash (strBytes "Company-Acme")
        = int_from_bytes_be_signed ((sha256 (utf8 (strBytes "Company-Acme"))).take 8)
    ∧ (sha256 (utf8 (strBytes "Company-Acme"))).length = 32
    ∧ 256 ≤ 8 * (sha256 (utf8 (strBytes "Company-Acme"))).length
    ∧ -(2 ^ 63) ≤ _get_int64_hash (strBytes "Company-Acme")
    ∧ _get_int64_hash (strBytes "Company-Acme") < 2 ^ 63
    ∧ _get_int64_hash (strBytes "Company-Acme") = _get_int64_hash (strBytes "Company-Acme") :=
  C3_hash_is_truncated_sha256 (strBytes "Company-Acme") (strBytes "Company-Acme") rfl

/-- C5 counterexample: the hash is not injective on all strings. It maps the
infinitely many strings into the 2^64 possible 64-bit values, so by the
pigeonhole principle two distinct strings share a hash; hence the claimed
equivalence (hash equality iff string equality) is false. -/
theorem C5_counterexample :
    ¬ (∀ s1 s2 : Str, _get_int64_hash s1 = _get_int64_hash s2 ↔ s1 = s2) := by
  intro H
  obtain ⟨x, y, hne, heq⟩ :=
    Finite.exists_ne_map_eq_of_infinite
      (fun s : Str => (⟨u64hash s, u64hash_lt s⟩ : Fin (2 ^ 64)))
  have hval : u64hash x = u64hash y := congrArg Fin.val heq
  have hhash : _get_int64_hash x = _get_int64_hash y := by
    rw [hash_eq_of_u64, hash_eq_of_u64, hval]
  exact hne ((H x y).mp hhash)

/-- C5 amended: the hash is deterministic (equal strings always yield equal
identifiers), but it is not injective: there exist two distinct strings with
the same identifier (collisions occur, though only with cryptographic-digest
probability and none is feasibly exhibited). -/
theorem C5_amended_deterministic_not_injective :
    (∀ s1 s2 : Str, s1 = s2 → _get_int64_hash s1 = _get_int64_hash s2)
    ∧ ∃ s1 s2 : Str, s1 ≠ s2 ∧ _get_int64_hash s1 = _get_int64_hash s2 := by
  constructor
  · intro s1 s2 h
    rw [h]
  · obtain ⟨x, y, hne, heq⟩ :=
      Finite.exists_ne_map_eq_of_infinite
        (fun s : Str => (⟨u64hash s, u64hash_lt s⟩ : Fin (2 ^ 64)))
    have hval : u64hash x = u64hash y := congrArg Fin.val heq
    refine ⟨x, y, hne, ?_⟩
    rw [hash_eq_of_u64, hash_eq_of_u64, hval]

/-- Witness for the deterministic half of the amended C5. -/
theorem C5_amended_witness :
    _get_int64_hash (strBytes "Acme") = _get_int64_hash (strBytes "Acme") :=
  C5_amended_deterministic_not_injective.1 (strBytes "Acme") (strBytes "Acme") rfl

/-! Flattened form of the mutation batches. -/

theorem build_mutations_go (inc base : Bool) (docs : List GraphDocument) :
    ∀ acc : List NodeRow × List EdgeRow,
      docs.foldl
        (fun acc doc =>
          (acc.1 ++ doc.nodes.map (node_row doc inc base),
           acc.2 ++ doc.relationships.map edge_row)) acc
      = (acc.1 ++ docs.flatMap (fun d => d.nodes.map (node_row d inc base)),
         acc.2 ++ docs.flatMap (fun d => d.relationships.map edge_row)) := by
  induction docs with
  | nil => intro acc; simp
  | cons d ds ih =>
    intro acc
    simp [ih, List.flatMap_cons]

theorem build_mutations_eq (docs : List GraphDocument) (inc base : Bool) :
    build_mutations docs inc base =
      (docs.flatMap (fun d => d.nodes.map (node_row d inc base)),
       docs.flatMap (fun d => d.relationships.map edge_row)) := by
  simpa using build_mutations_go inc base docs ([], [])

/-- C4: every relationship contributes exactly one edge row, whose fields
are the hashes of the endpoint canonical strings and of the combined
canonical string; the row is a function of the relationship alone (not of
the flags, the surrounding document, or insertion order), and it is
produced unconditionally, even when the endpoints are absent from the
node batch. -/
theorem C4_edge_rows_from_natural_keys (graph_documents : List GraphDocument)
    (include_source baseEntityLabel : Bool) :
    (build_mutations graph_documents include_source baseEntityLabel).2
        = graph_documents.flatMap (fun d => d.relationships.map edge_row)
    ∧ (build_mutations graph_documents include_source baseEntityLabel).2.length
        = (graph_documents.map (fun d => d.relationships.length)).sum
    ∧ ∀ rel : Relationship,
        edge_row rel =
          (_get_int64_hash (rel.source.type ++ dash ++ rel.source.id),
           _get_int64_hash (rel.target.type ++ dash ++ rel.target.id),
           _get_int64_hash
             (intStr (_get_int64_hash (rel.source.type ++ dash ++ rel.source.id)) ++ dash ++
              rel.type ++ dash ++
              intStr (_get_int64_hash (rel.target.type ++ dash ++ rel.target.id))),
           rel.type, rel.properties) := by
  refine ⟨(congrArg Prod.snd (build_mutations_eq graph_documents include_source baseEntityLabel)),
    ?_, fun rel => rfl⟩
  rw [congrArg Prod.snd (build_mutations_eq graph_documents include_source baseEntityLabel)]
  simp [List.length_flatMap, Function.comp_def, List.length_map]

/-! Keyed-upsert application: last write wins, one row per key. -/

theorem filter_map_replace_ne (table : List NodeRow) (r : NodeRow) (k : Int) (hk : ¬ r.1 = k) :
    ((table.map (fun x => if x.1 = r.1 then r else x)).filter (fun x => decide (x.1 = k)))
      = table.filter (fun x => decide (x.1 = k)) := by
  induction table with
  | nil => rfl
  | cons t ts ih =>
    by_cases ht : t.1 = r.1
    · simp [List.filter_cons, ht, hk, ih]
    · simp [List.filter_cons, ht, ih]

theorem filter_map_replace_eq (table : List NodeRow) (r : NodeRow) :
    distinctKeys table → table.any (fun x => decide (x.1 = r.1)) = true →
    ((table.map (fun x => if x.1 = r.1 then r else x)).filter (fun x => decide (x.1 = r.1)))
      = [r] := by
  induction table with
  | nil => intro _ h; simp at h
  | cons t ts ih =>
    intro hd hany
    rcases List.pairwise_cons.mp hd with ⟨hhead, htail⟩
    by_cases ht : t.1 = r.1
    · have hmap : ts.map (fun x => if x.1 = r.1 then r else x) = ts := by
        rw [List.map_congr_left (g := id) ?_, List.map_id]
        intro x hx
        have : ¬ x.1 = r.1 := fun h => hhead x hx (ht.trans h.symm)
        simp [this]
      have hrest : (ts.filter (fun x => decide (x.1 = r.1))) = [] :=
        List.filter_eq_nil_iff.mpr
          (fun x hx => by simpa using fun h => hhead x hx (ht.trans h.symm))
      simp [List.filter_cons, ht, hmap, hrest]
    · have hany2 : ts.any (fun x => decide (x.1 = r.1)) = true := by
        simpa [List.any_cons, ht] using hany
      simp [List.filter_cons, ht, ih htail hany2]

theorem distinctKeys_upsertRow {table : List NodeRow} (r : NodeRow) (hd : distinctKeys table) :
    distinctKeys (upsertRow table r) := by
  unfold upsertRow
  split
  · refine List.Pairwise.map _ ?_ hd
    have hkey : ∀ x : NodeRow, (if x.1 = r.1 then r else x).1 = x.1 := by
      intro x
      by_cases hx : x.1 = r.1 <;> simp [hx]
    intro a b hab
    rw [hkey a, hkey b]
    exact hab
  · rename_i hno
    refine List.pairwise_append.mpr ⟨hd, List.pairwise_singleton _ _, ?_⟩
    intro a ha b hb
    have hb2 : b = r := by simpa using hb
    subst hb2
    simp only [List.any_eq_true, not_exists, not_and] at hno
    have := hno a ha
    simpa using this

theorem filter_upsertRow (table : List NodeRow) (r : NodeRow) (k : Int)
    (hd : distinctKeys table) :
    (upsertRow table r).filter (fun x => decide (x.1 = k)) =
      if r.1 = k then [r] else table.filter (fun x => decide (x.1 = k)) := by
  unfold upsertRow
  split
  · rename_i hany
    by_cases hk : r.1 = k
    · subst hk
      rw [if_pos rfl]
      exact filter_map_replace_eq table r hd hany
    · rw [if_neg hk]
      exact filter_map_replace_ne table r k hk
  · rename_i hno
    rw [List.filter_append]
    simp only [List.any_eq_true, not_exists, not_and] at hno
    by_cases hk : r.1 = k
    · rw [if_pos hk]
      have h1 : table.filter (fun x => decide (x.1 = k)) = [] :=
        List.filter_eq_nil_iff.mpr
          (fun x hx => by simpa using fun h => hno x hx (by simp [h, hk]))
      rw [h1]
      simp [hk]
    · rw [if_neg hk]
      simp [hk]

theorem apply_upserts_go (k : Int) (rows : List NodeRow) :
    ∀ acc, distinctKeys acc →
      ((rows.foldl upsertRow acc).filter (fun x => decide (x.1 = k))) =
        (match rows.reverse.find? (fun x => decide (x.1 = k)) with
         | some r => [r]
         | none => acc.filter (fun x => decide (x.1 = k))) := by
  induction rows with
  | nil => intro acc _; simp
  | cons r rs ih =>
    intro acc hacc
    rw [List.foldl_cons, ih _ (distinctKeys_upsertRow r hacc)]
    rw [List.reverse_cons, List.find?_append]
    cases h : rs.reverse.find? (fun x => decide (x.1 = k)) with
    | some x => simp
    | none =>
      rw [filter_upsertRow _ _ _ hacc]
      by_cases hk : r.1 = k
      · simp [List.find?, hk]
      · simp [List.find?, hk]

/-- C1 counterexample: two documents both containing the node
(Company, Acme) with different property values produce a node batch with
TWO rows for that identifier, not one — the builder does not merge
duplicates. -/
theorem C1_counterexample :
    ¬ (((build_mutations [acme_doc1, acme_doc2] false false).1.filter
          (fun r => decide (r.1 = node_hash_id acme_node_usa))).length = 1) := by
  decide

/-- C1 amended: the node batch contains one row per node occurrence, in
document order, without merging; since every row goes through the keyed
insert-or-update, applying the batch in order leaves, for every identifier,
exactly one stored row — the last occurrence of that identifier in the
batch (last-write-wins, no error) — and no row for absent identifiers. -/
theorem C1_amended_last_write_wins (graph_documents : List GraphDocument)
    (include_source baseEntityLabel : Bool) (k : Int) :
    (build_mutations graph_documents include_source baseEntityLabel).1
        = graph_documents.flatMap (fun d => d.nodes.map (node_row d include_source baseEntityLabel))
    ∧ (apply_upserts (build_mutations graph_documents include_source baseEntityLabel).1).filter
          (fun r => decide (r.1 = k))
        = (match (build_mutations graph_documents include_source baseEntityLabel).1.reverse.find?
               (fun r => decide (r.1 = k)) with
           | some r => [r]
           | none => []) := by
  refine ⟨congrArg Prod.fst (build_mutations_eq graph_documents include_source baseEntityLabel), ?_⟩
  exact apply_upserts_go k (build_mutations graph_documents include_source baseEntityLabel).1
    [] List.Pairwise.nil

/-- C2: the call mutates its input. With `baseEntityLabel` requested and a
node whose property mapping is non-empty, the caller's mapping gains the
injected key after the call (the code binds the very dict object of the
input node and assigns into it), contradicting the never-mutates claim. -/
theorem C2_input_mutated_at_failing_input :
    node_properties_after acme_doc1 false true acme_node_usa
        = acme_node_usa.properties ++ [(strBytes "baseEntityLabel", JValue.bool true)]
    ∧ node_properties_after acme_doc1 false true acme_node_usa ≠ acme_node_usa.properties := by
  have h1 : node_properties_after acme_doc1 false true acme_node_usa
      = acme_node_usa.properties ++ [(strBytes "baseEntityLabel", JValue.bool true)] := by
    rfl
  refine ⟨h1, fun h => ?_⟩
  rw [h1] at h
  have hlen := congrArg List.length h
  simp [acme_node_usa] at hlen

/-- C6: every `add_graph_documents` trace runs the schema verification
first, then exactly one transaction wrapping the upserts; inside it the
node-batch upsert (issued precisely when the node batch is non-empty)
precedes the edge-batch upsert (issued precisely when the edge batch is
non-empty), and nothing else happens between begin and commit. -/
theorem C6_schema_then_single_transaction (cfg : Config)
    (graph_documents : List GraphDocument) (include_source baseEntityLabel : Bool) :
    (add_graph_documents cfg graph_documents include_source baseEntityLabel).head?
        = some Effect.ensure_schema
    ∧ add_graph_documents cfg graph_documents include_source baseEntityLabel
        = [Effect.ensure_schema, Effect.txn_begin] ++
          ((if (build_mutations graph_documents include_source baseEntityLabel).1.isEmpty then []
            else [Effect.upsert_nodes cfg.node_table node_columns
                    (build_mutations graph_documents include_source baseEntityLabel).1]) ++
           (if (build_mutations graph_documents include_source baseEntityLabel).2.isEmpty then []
            else [Effect.upsert_edges cfg.edge_table edge_columns
                    (build_mutations graph_documents include_source baseEntityLabel).2])) ++
          [Effect.txn_commit]
    ∧ (Effect.upsert_nodes cfg.node_table node_columns
          (build_mutations graph_documents include_source baseEntityLabel).1
        ∈ add_graph_documents cfg graph_documents include_source baseEntityLabel
       ↔ (build_mutations graph_documents include_source baseEntityLabel).1 ≠ [])
    ∧ (Effect.upsert_edges cfg.edge_table edge_columns
          (build_mutations graph_documents include_source baseEntityLabel).2
        ∈ add_graph_documents cfg graph_documents include_source baseEntityLabel
       ↔ (build_mutations graph_documents include_source baseEntityLabel).2 ≠ []) := by
  refine ⟨rfl, rfl, ?_, ?_⟩ <;>
    by_cases h1 : (build_mutations graph_documents include_source baseEntityLabel).1.isEmpty <;>
    by_cases h2 : (build_mutations graph_documents include_source baseEntityLabel).2.isEmpty <;>
    simp_all [add_graph_documents, insert_data]

/-- C7: `_create_or_verify_schema` (and `refresh_schema`, which re-runs it)
returns normally for every backend behaviour; when the body raises, the
error is caught and reported in the result instead of propagating. -/
theorem C7_schema_errors_suppressed (cfg : Config) (b : Backend) :
    (∃ r, _create_or_verify_schema cfg b = Except.ok r)
    ∧ (∃ r, refresh_schema cfg b = Except.ok r)
    ∧ (∀ issued e, schema_body cfg b = Except.error (issued, e) →
        _create_or_verify_schema cfg b = Except.ok ⟨issued, some e⟩)
    ∧ refresh_schema cfg b = _create_or_verify_schema cfg b := by
  refine ⟨?_, ?_, ?_, rfl⟩
  · unfold _create_or_verify_schema
    cases h : schema_body cfg b with
    | ok issued => exact ⟨⟨issued, none⟩, rfl⟩
    | error pe => exact ⟨⟨pe.1, some pe.2⟩, rfl⟩
  · unfold refresh_schema _create_or_verify_schema
    cases h : schema_body cfg b with
    | ok issued => exact ⟨⟨issued, none⟩, rfl⟩
    | error pe => exact ⟨⟨pe.1, some pe.2⟩, rfl⟩
  · intro issued e h
    unfold _create_or_verify_schema
    rw [h]

/-- Witness for C7: a backend whose catalog query raises error code 7 still
yields a normal return carrying the reported error. -/
theorem C7_schema_errors_witness :
    _create_or_verify_schema cfg0 b_fail = Except.ok ⟨[], some 7⟩ :=
  (C7_schema_errors_suppressed cfg0 b_fail).2.2.1 [] 7 rfl

/-- C8: `_create_or_verify_schema` is idempotent: whenever the catalog
reports both tables and the graph view present, it issues zero DDL
statements and reports no error. -/
theorem C8_schema_idempotent (cfg : Config) (b : Backend) (ts : List Str) (rows : List Nat)
    (h1 : b.tables_query = Except.ok ts)
    (h2 : cfg.node_table ∈ ts) (h3 : cfg.edge_table ∈ ts)
    (h4 : b.graph_query = Except.ok rows) (h5 : rows ≠ []) :
    _create_or_verify_schema cfg b = Except.ok ⟨[], none⟩ := by
  unfold _create_or_verify_schema schema_body
  rw [h1, h4]
  simp [h2, h3, h5]

/-- Witness for C8: with both tables and the graph reported present, the
call is a no-op. -/
theorem C8_schema_idempotent_witness :
    _create_or_verify_schema cfg0 b_ok = Except.ok ⟨[], none⟩ :=
  C8_schema_idempotent cfg0 b_ok
    [strBytes "GraphNode", strBytes "GraphEdge"] [1]
    rfl (by decide) (by decide) rfl (by decide)

/-- C9: `cleanup` never raises: for every backend behaviour it returns
normally, after requesting the drop of the graph view, then the edge table,
then the node table, each guarded by IF EXISTS, awaited with the bounded
timeout of 200 seconds. -/
theorem C9_cleanup_never_raises (cfg : Config) (b : Backend) :
    cleanup cfg b =
      Except.ok
        ⟨[Ddl.drop_property_graph true cfg.graph_name,
          Ddl.drop_table true cfg.edge_table,
          Ddl.drop_table true cfg.node_table], some 200⟩ := by
  unfold cleanup
  cases b.cleanup_ddl_result <;> rfl

/-! Python-dict lookup after assignment. -/

theorem lookup_setKey (d : Props) (k : Str) (v : JValue) :
    lookupKey (setKey d k v) k = some v := by
  induction d with
  | nil => simp [setKey, lookupKey, List.find?]
  | cons p d ih =>
    obtain ⟨k0, v0⟩ := p
    by_cases h : k0 = k
    · simp [setKey, h, lookupKey, List.find?]
    · simpa [setKey, h, lookupKey, List.find?] using ih

theorem lookup_setKey_ne (d : Props) (k : Str) (v : JValue) (k2 : Str) (h : ¬ k = k2) :
    lookupKey (setKey d k v) k2 = lookupKey d k2 := by
  induction d with
  | nil => simp [setKey, lookupKey, List.find?, h]
  | cons p d ih =>
    obtain ⟨k0, v0⟩ := p
    by_cases h0 : k0 = k
    · subst h0
      simp [setKey, lookupKey, List.find?, h]
    · by_cases h2 : k0 = k2
      · have h3 : ¬ k2 = k := fun hh => h hh.symm
        simp [setKey, h0, lookupKey, List.find?, h2, h3]
      · simpa [setKey, h0, lookupKey, List.find?, h2] using ih

/-- C10: the injected properties win over caller-supplied properties of the
same name: with `baseEntityLabel` requested the stored row maps
baseEntityLabel to true, and with `include_source` requested it maps
source to the injected page-content/metadata object, whatever the caller's
mapping contained; the row carries exactly these merged properties. -/
theorem C10_injected_properties_override (doc : GraphDocument) (n : Node) :
    (∀ include_source : Bool,
      lookupKey (node_row_properties doc include_source true n) (strBytes "baseEntityLabel")
        = some (JValue.bool true))
    ∧ (∀ baseEntityLabel : Bool,
      lookupKey (node_row_properties doc true baseEntityLabel n) (strBytes "source")
        = some (JValue.obj [(strBytes "page_content", JValue.str doc.source.page_content),
                            (strBytes "metadata", JValue.obj doc.source.metadata)]))
    ∧ ∀ include_source baseEntityLabel : Bool,
        (node_row doc include_source baseEntityLabel n).2.2
          = node_row_properties doc include_source baseEntityLabel n := by
  refine ⟨?_, ?_, fun _ _ => rfl⟩
  · intro inc
    cases inc
    · simp [node_row_properties, lookup_setKey]
    · have hne : ¬ (strBytes "source") = (strBytes "baseEntityLabel") := by decide
      simp [node_row_properties, lookup_setKey_ne _ _ _ _ hne, lookup_setKey]
  · intro base
    cases base <;> simp [node_row_properties, lookup_setKey]

/-! SHA-256 implementation checked against the FIPS 180-4 test vectors. -/

theorem sha256_empty_vector :
    sha256 [] =
      [227, 176, 196, 66, 152, 252, 28, 20, 154, 251, 244,
       200, 153, 111, 185, 36, 39, 174, 65, 228, 100, 155,
       147, 76, 164, 149, 153, 27, 120, 82, 184, 85] := by
  decide

theorem sha256_abc_vector :
    sha256 (utf8 (strBytes "abc")) =
      [186, 120, 22, 191, 143, 1, 207, 234, 65, 65, 64,
       222, 93, 174, 34, 35, 176, 3, 97, 163, 150, 23,
       122, 156, 180, 16, 255, 97, 242, 0, 21, 173] := by
  decide
